import Mathlib

/-!
Verification of the storage/CRUD layer of the student/teacher portal
(`src/data/storage.js`).  The two record collections are embedded as Lean
lists, the façade operations as pure functions that thread the collection
state explicitly.  JavaScript string truthiness (`!x`, `x || d`) is modelled
for string fields by comparison with the empty string, and optional object
fields by `Option`.  Aliasing questions (defensive copies on read) are
settled in a second, heap-based embedding (`RefStore`) in which records live
in explicitly addressed cells.
-/

namespace Storage

/-- A student record: `{ id, name, email, password }`, all strings. -/
structure Student where
  id : String
  name : String
  email : String
  password : String
deriving DecidableEq, Repr

/-- A teacher record: `{ id, name, email, password, specialization }`. -/
structure Teacher where
  id : String
  name : String
  email : String
  password : String
  specialization : List String
deriving DecidableEq, Repr

instance : Inhabited Student := ⟨⟨"", "", "", ""⟩⟩

instance : Inhabited Teacher := ⟨⟨"", "", "", "", []⟩⟩

/-- Input object for `createStudent`: `password` may be absent (`none`). -/
structure StudentData where
  id : String
  name : String
  email : String
  password : Option String
deriving DecidableEq, Repr

/-- Input object for `createTeacher`: `password` may be absent, and
`specialization` is `none` when absent or not an array
(`Array.isArray(teacherData.specialization) ? ... : []`). -/
structure TeacherData where
  id : String
  name : String
  email : String
  password : Option String
  specialization : Option (List String)
deriving DecidableEq, Repr

/-- JavaScript `v || d` for a possibly-absent string `v`: an absent value and
the empty string are both falsy, so either yields the default `d`. -/
def jsOr (v : Option String) (d : String) : String :=
  match v with
  | none => d
  | some s => if s = "" then d else s

/-- JavaScript `id.slice(-3)`: the last three characters of `id` (the whole
string when it is shorter than three characters). -/
def sliceLast3 (s : String) : String :=
  s.drop (s.length - 3)

/-- Does `small` occur at the head of `hay`? (helper for substring search) -/
def leadMatch : List Char → List Char → Bool
  | [], _ => true
  | _ :: _, [] => false
  | n :: ns, h :: hs => n == h && leadMatch ns hs

/-- Does `needle` occur as a contiguous run inside `hay`?  Models JavaScript
`hay.includes(needle)` on the underlying character lists. -/
def subMatch (needle : List Char) : List Char → Bool
  | [] => needle.isEmpty
  | h :: hs => leadMatch needle (h :: hs) || subMatch needle hs

/-- JavaScript `s.toLowerCase()`, as the resulting character list.  (Lean's
`String.map` does not reduce in the kernel, so the lowered string is kept as
a `List Char`; `includes` is `subMatch` on these lists.) -/
def lowerChars (s : String) : List Char :=
  s.toList.map Char.toLower

/-- The two error kinds `createStudent` / `createTeacher` can throw:
`validation` for "must have id, name, and email", `duplicate` for
"ID ... already exists". -/
inductive CreateErr where
  | validation
  | duplicate
deriving DecidableEq, Repr

/-- Embeds `createStudent(studentData)` from `storage.js`:
checks required fields, then id uniqueness, then builds the new record with
the synthesized default password `"Student@" + id.slice(-3)` when the given
password is falsy, and appends it.  Returns the created record and the new
collection. -/
def createStudent (d : StudentData) (students : List Student) :
    Except CreateErr (Student × List Student) :=
  if d.id = "" || d.name = "" || d.email = "" then
    .error .validation
  else if (students.find? (fun s => s.id == d.id)).isSome then
    .error .duplicate
  else
    let newStudent : Student :=
      ⟨d.id, d.name, d.email, jsOr d.password ("Student@" ++ sliceLast3 d.id)⟩
    .ok (newStudent, students ++ [newStudent])

/-- Embeds `createTeacher(teacherData)` from `storage.js`: as for students, with
default password `"Teacher@" + id.slice(-3)` and `specialization`
defaulting to the empty array when absent or not an array. -/
def createTeacher (d : TeacherData) (teachers : List Teacher) :
    Except CreateErr (Teacher × List Teacher) :=
  if d.id = "" || d.name = "" || d.email = "" then
    .error .validation
  else if (teachers.find? (fun t => t.id == d.id)).isSome then
    .error .duplicate
  else
    let newTeacher : Teacher :=
      ⟨d.id, d.name, d.email, jsOr d.password ("Teacher@" ++ sliceLast3 d.id),
        d.specialization.getD []⟩
    .ok (newTeacher, teachers ++ [newTeacher])

/-- Embeds `getStudentById(id)`: linear `find` by id equality (the `{...student}`
copy is the identity on values in this pure embedding). -/
def getStudentById (id : String) (students : List Student) : Option Student :=
  students.find? (fun s => s.id == id)

/-- Embeds `getTeacherById(id)`. -/
def getTeacherById (id : String) (teachers : List Teacher) : Option Teacher :=
  teachers.find? (fun t => t.id == id)

/-- The `updates` object passed to `updateStudent`: each field may be absent.
A supplied `id` is ignored by the merge `{...old, ...updates, id}`. -/
structure StudentUpdates where
  id : Option String := none
  name : Option String := none
  email : Option String := none
  password : Option String := none
deriving DecidableEq, Repr

/-- The `updates` object passed to `updateTeacher`. -/
structure TeacherUpdates where
  id : Option String := none
  name : Option String := none
  email : Option String := none
  password : Option String := none
  specialization : Option (List String) := none
deriving DecidableEq, Repr

/-- The merge `students[index] = { ...students[index], ...updates, id }`:
patch fields overwrite, and the trailing `id` forces the lookup id. -/
def applyStudentUpdates (old : Student) (u : StudentUpdates) (id : String) :
    Student :=
  { id := id
    name := u.name.getD old.name
    email := u.email.getD old.email
    password := u.password.getD old.password }

/-- The merge `teachers[index] = { ...teachers[index], ...updates, id }`. -/
def applyTeacherUpdates (old : Teacher) (u : TeacherUpdates) (id : String) :
    Teacher :=
  { id := id
    name := u.name.getD old.name
    email := u.email.getD old.email
    password := u.password.getD old.password
    specialization := u.specialization.getD old.specialization }

/-- Models `findIndex` followed by in-place assignment of `f old` at the found
index: replace the first element satisfying `p`, or report `none` when no
element does.  Returns the new element and the updated list. -/
def updateFirst (p : α → Bool) (f : α → α) : List α → Option (α × List α)
  | [] => none
  | x :: xs =>
    if p x then
      some (f x, f x :: xs)
    else
      match updateFirst p f xs with
      | none => none
      | some (r, xs') => some (r, x :: xs')

/-- Embeds `updateStudent(id, updates)`: `none` models the thrown
"Student with ID ... not found". -/
def updateStudent (id : String) (u : StudentUpdates)
    (students : List Student) : Option (Student × List Student) :=
  updateFirst (fun s => s.id == id) (fun old => applyStudentUpdates old u id)
    students

/-- Embeds `updateTeacher(id, updates)`. -/
def updateTeacher (id : String) (u : TeacherUpdates)
    (teachers : List Teacher) : Option (Teacher × List Teacher) :=
  updateFirst (fun t => t.id == id) (fun old => applyTeacherUpdates old u id)
    teachers

/-- Models `findIndex` followed by `splice(index, 1)`: remove the first element
satisfying `p`; the boolean reports whether one was found. -/
def removeFirst (p : α → Bool) : List α → Bool × List α
  | [] => (false, [])
  | x :: xs =>
    if p x then
      (true, xs)
    else
      let (b, xs') := removeFirst p xs
      (b, x :: xs')

/-- Embeds `deleteStudent(id)`: returns `false` and the unchanged collection when
the id is absent, `true` and the collection without the first match when
present.  Total — the source function never throws. -/
def deleteStudent (id : String) (students : List Student) :
    Bool × List Student :=
  removeFirst (fun s => s.id == id) students

/-- Embeds `deleteTeacher(id)`. -/
def deleteTeacher (id : String) (teachers : List Teacher) :
    Bool × List Teacher :=
  removeFirst (fun t => t.id == id) teachers

/-- Embeds `searchStudents(query)`: lower the query once
(`const q = query.toLowerCase()`), then keep the records whose lowered
`name` or lowered `email` includes it. -/
def searchStudents (query : String) (students : List Student) :
    List Student :=
  let q := lowerChars query
  students.filter
    (fun s => subMatch q (lowerChars s.name) || subMatch q (lowerChars s.email))

/-- Embeds `searchTeachers(query)`. -/
def searchTeachers (query : String) (teachers : List Teacher) :
    List Teacher :=
  let q := lowerChars query
  teachers.filter
    (fun t => subMatch q (lowerChars t.name) || subMatch q (lowerChars t.email))

/-- The two in-memory collections of the record store (the module-level
`students` and `teachers` arrays). -/
structure AppState where
  students : List Student
  teachers : List Teacher
deriving DecidableEq, Repr

/-- The object built by `exportData()`: deep copies of both collections and
the export timestamp (`JSON.parse(JSON.stringify(...))` is the identity on
these plain string-field records). -/
structure ExportPayload where
  students : List Student
  teachers : List Teacher
  exportDate : String
deriving DecidableEq, Repr

/-- Embeds `exportData()`; the serialization timestamp is passed in as `now`. -/
def exportData (st : AppState) (now : String) : ExportPayload :=
  ⟨st.students, st.teachers, now⟩

/-- The argument of `importData`: each collection field is `none` when absent
or not an array (the code guards with `data.students && Array.isArray(...)`;
any array, even an empty one, is truthy and passes the guard). -/
structure ImportPayload where
  students : Option (List Student) := none
  teachers : Option (List Teacher) := none
deriving DecidableEq, Repr

/-- View an export payload as an import payload (both arrays present). -/
def ExportPayload.toImport (e : ExportPayload) : ImportPayload :=
  ⟨some e.students, some e.teachers⟩

/-- Modelled from the spec: the bodies of `saveStudents` / `saveTeachers`
live in `src/data/students.js` / `teachers.js`, which are not in the
repository snapshot; per §4.2 `importAll` "wholesale-replaces the student
collection (no merge, no validation of individual records) and persists;
same for `data.teachers`".  So `importData(data)` replaces each collection
for which the payload carries an array and leaves the other unchanged. -/
def importData (d : ImportPayload) (st : AppState) : AppState :=
  { students := d.students.getD st.students
    teachers := d.teachers.getD st.teachers }

/-- Modelled from the spec: the default seed collections live in
`students.js` / `teachers.js`, which are not in the repository snapshot.
§8 names the seed student `S1 = {id:"1234500001", name:"John Doe",
email:"john@x.edu"}`; no teacher seed is enumerated. -/
def defaultStudents : List Student :=
  [⟨"1234500001", "John Doe", "john@x.edu", "Student@001"⟩]

/-- Modelled from the spec: see `defaultStudents`. -/
def defaultTeachers : List Teacher := []

/-- Embeds `resetAllData()`: `resetStudents(); resetTeachers();` replaces both
collections with the built-in seed data (§4.2 `resetAll`). -/
def resetAllData (_st : AppState) : AppState :=
  ⟨defaultStudents, defaultTeachers⟩

/-- One façade operation, for the state-machine view of the store. -/
inductive Op where
  | createS (d : StudentData)
  | updateS (id : String) (u : StudentUpdates)
  | deleteS (id : String)
  | searchS (q : String)
  | createT (d : TeacherData)
  | updateT (id : String) (u : TeacherUpdates)
  | deleteT (id : String)
  | searchT (q : String)
  | exportAll
  | importAll (d : ImportPayload)
  | resetAll
deriving Repr

/-- The state after one façade operation.  A failed create or update throws
in the source before any mutation, so it leaves the collections unchanged;
search and export never mutate. -/
def applyOp (op : Op) (st : AppState) : AppState :=
  match op with
  | .createS d =>
    match createStudent d st.students with
    | .ok (_, l) => { st with students := l }
    | .error _ => st
  | .updateS id u =>
    match updateStudent id u st.students with
    | some (_, l) => { st with students := l }
    | none => st
  | .deleteS id => { st with students := (deleteStudent id st.students).2 }
  | .searchS _ => st
  | .createT d =>
    match createTeacher d st.teachers with
    | .ok (_, l) => { st with teachers := l }
    | .error _ => st
  | .updateT id u =>
    match updateTeacher id u st.teachers with
    | some (_, l) => { st with teachers := l }
    | none => st
  | .deleteT id => { st with teachers := (deleteTeacher id st.teachers).2 }
  | .searchT _ => st
  | .exportAll => st
  | .importAll d => importData d st
  | .resetAll => resetAllData st

/-- The state after a sequence of façade operations. -/
def runOps (ops : List Op) (st : AppState) : AppState :=
  ops.foldl (fun s op => applyOp op s) st

/-- Id uniqueness within each collection (§3 invariant). -/
def idsNodup (st : AppState) : Prop :=
  (st.students.map Student.id).Nodup ∧ (st.teachers.map Teacher.id).Nodup

instance : DecidablePred idsNodup := fun _ =>
  inferInstanceAs (Decidable (_ ∧ _))

/-- An operation that cannot inject duplicate ids: every operation except
an import whose payload itself carries duplicate ids (an absent payload
part imposes nothing, and `getD []` maps it to the trivially duplicate-free
empty list). -/
def opSafe (op : Op) : Bool :=
  match op with
  | .importAll d =>
    ((d.students.getD []).map Student.id).Nodup ∧
    ((d.teachers.getD []).map Teacher.id).Nodup
  | _ => true

/-!
Heap-based embedding for aliasing questions.  JavaScript objects are heap
references: an internal collection is a list of cell addresses into a heap
of record values.  `{...s}` allocates a fresh cell holding a copy of the
value; `Array.prototype.filter` builds a fresh array whose elements are the
very same references.  A caller "mutating a returned record" is a heap
write at a returned address.
-/

/-- A collection of records held by reference: `cells` is the heap (one
record value per cell), `refs` the internal array of cell addresses. -/
structure RefStore (α : Type) where
  cells : List α
  refs : List Nat
deriving Repr

namespace RefStore

variable {α : Type} [Inhabited α]

/-- The record values the internal collection currently holds. -/
def stored (st : RefStore α) : List α :=
  st.refs.map (fun r => st.cells.getD r default)

/-- A caller mutates the record behind address `r` (e.g. assigns to a field
of an object it was handed). -/
def write (st : RefStore α) (r : Nat) (v : α) : RefStore α :=
  { st with cells := st.cells.set r v }

/-- All internal addresses point into the heap. -/
def Wf (st : RefStore α) : Prop :=
  ∀ r ∈ st.refs, r < st.cells.length

instance (st : RefStore α) : Decidable st.Wf :=
  List.decidableBAll (fun r => r < st.cells.length) st.refs

/-- Models `collection.map(x => ({...x}))`: allocate a fresh cell per record, each
holding a copy of the record's current value, and hand out the fresh
addresses. -/
def listCopy (st : RefStore α) : List Nat × RefStore α :=
  ((List.range st.refs.length).map (fun i => i + st.cells.length),
    { st with cells := st.cells ++ st.stored })

/-- Models `collection.find(p)` followed by `found ? {...found} : null`: locate the
first record satisfying `p`, copy it into a fresh cell, and hand out that
fresh address (or `none`). -/
def findCopy (p : α → Bool) (st : RefStore α) : Option Nat × RefStore α :=
  match st.refs.find? (fun r => p (st.cells.getD r default)) with
  | none => (none, st)
  | some r =>
    (some st.cells.length, { st with cells := st.cells ++ [st.cells.getD r default] })

/-- Models `collection.filter(p)`: a fresh array whose elements are the same
references as the internal array's — no copies are made. -/
def filterAlias (p : α → Bool) (st : RefStore α) : List Nat × RefStore α :=
  (st.refs.filter (fun r => p (st.cells.getD r default)), st)

end RefStore

/-- The record-match predicate of `searchStudents`, on one student. -/
def studentMatches (query : String) (s : Student) : Bool :=
  subMatch (lowerChars query) (lowerChars s.name) ||
    subMatch (lowerChars query) (lowerChars s.email)

/-- The record-match predicate of `searchTeachers`, on one teacher. -/
def teacherMatches (query : String) (t : Teacher) : Bool :=
  subMatch (lowerChars query) (lowerChars t.name) ||
    subMatch (lowerChars query) (lowerChars t.email)

/-- Operation `getStudents()` in the heap embedding. -/
def getStudentsH (st : RefStore Student) : List Nat × RefStore Student :=
  st.listCopy

/-- Operation `getStudentById(id)` in the heap embedding. -/
def getStudentByIdH (id : String) (st : RefStore Student) :
    Option Nat × RefStore Student :=
  st.findCopy (fun s => s.id == id)

/-- Operation `searchStudents(query)` in the heap embedding: `filter` hands back the
stored references themselves. -/
def searchStudentsH (query : String) (st : RefStore Student) :
    List Nat × RefStore Student :=
  st.filterAlias (studentMatches query)

/-- Operation `getTeachers()` in the heap embedding. -/
def getTeachersH (st : RefStore Teacher) : List Nat × RefStore Teacher :=
  st.listCopy

/-- Operation `getTeacherById(id)` in the heap embedding. -/
def getTeacherByIdH (id : String) (st : RefStore Teacher) :
    Option Nat × RefStore Teacher :=
  st.findCopy (fun t => t.id == id)

/-- Operation `searchTeachers(query)` in the heap embedding. -/
def searchTeachersH (query : String) (st : RefStore Teacher) :
    List Nat × RefStore Teacher :=
  st.filterAlias (teacherMatches query)

/-- Case-insensitive substring containment as §4.2 words it: the needle
occurs in the haystack once both are lowered. -/
def specContainsCI (hay needle : String) : Bool :=
  subMatch (lowerChars needle) (lowerChars hay)

/-- The records §4.2 says `search(query)` keeps, for students: the query
occurs case-insensitively in `name` or `email` — never in `id`. -/
def specStudentMatch (query : String) (r : Student) : Bool :=
  specContainsCI r.name query || specContainsCI r.email query

/-- The records §4.2 says `search(query)` keeps, for teachers. -/
def specTeacherMatch (query : String) (r : Teacher) : Bool :=
  specContainsCI r.name query || specContainsCI r.email query

/-! Helper lemmas. -/

theorem subMatch_nil (hay : List Char) : subMatch [] hay = true := by
  cases hay <;> simp [subMatch, leadMatch]

theorem lowerChars_empty : lowerChars "" = [] := by decide

theorem append_ne_empty (s t : String) (h : s.length ≠ 0) : s ++ t ≠ "" := by
  intro he
  have h2 := congrArg String.length he
  simp [String.length_append] at h2
  exact h h2.1

theorem jsOr_ne_empty (v : Option String) (d : String) (hd : d ≠ "") :
    jsOr v d ≠ "" := by
  cases v with
  | none => simpa [jsOr] using hd
  | some s =>
    by_cases hs : s = ""
    · rw [jsOr, if_pos hs]
      exact hd
    · rw [jsOr, if_neg hs]
      exact hs

theorem find?_append_none {α : Type} {p : α → Bool} {l₁ l₂ : List α}
    (h : l₁.find? p = none) : (l₁ ++ l₂).find? p = l₂.find? p := by
  rw [List.find?_append, h, Option.none_or]

theorem createStudent_success (d : StudentData) (s : List Student)
    (hid : d.id ≠ "") (hn : d.name ≠ "") (he : d.email ≠ "")
    (hf : ∀ x ∈ s, x.id ≠ d.id) :
    createStudent d s =
      .ok (⟨d.id, d.name, d.email,
            jsOr d.password ("Student@" ++ sliceLast3 d.id)⟩,
        s ++ [⟨d.id, d.name, d.email,
            jsOr d.password ("Student@" ++ sliceLast3 d.id)⟩]) := by
  have h2 : s.find? (fun x => x.id == d.id) = none := by
    rw [List.find?_eq_none]
    intro x hx
    simpa using hf x hx
  simp [createStudent, hid, hn, he, h2]

theorem createTeacher_success (d : TeacherData) (s : List Teacher)
    (hid : d.id ≠ "") (hn : d.name ≠ "") (he : d.email ≠ "")
    (hf : ∀ x ∈ s, x.id ≠ d.id) :
    createTeacher d s =
      .ok (⟨d.id, d.name, d.email,
            jsOr d.password ("Teacher@" ++ sliceLast3 d.id),
            d.specialization.getD []⟩,
        s ++ [⟨d.id, d.name, d.email,
            jsOr d.password ("Teacher@" ++ sliceLast3 d.id),
            d.specialization.getD []⟩]) := by
  have h2 : s.find? (fun x => x.id == d.id) = none := by
    rw [List.find?_eq_none]
    intro x hx
    simpa using hf x hx
  simp [createTeacher, hid, hn, he, h2]

theorem createStudent_ok {d : StudentData} {s : List Student} {r : Student}
    {l : List Student} (h : createStudent d s = .ok (r, l)) :
    r = ⟨d.id, d.name, d.email,
          jsOr d.password ("Student@" ++ sliceLast3 d.id)⟩ ∧
    l = s ++ [r] ∧ ∀ x ∈ s, x.id ≠ d.id := by
  unfold createStudent at h
  split at h
  · exact absurd h (by simp)
  · split at h
    · exact absurd h (by simp)
    · next hdup =>
      have hfind : s.find? (fun x => x.id == d.id) = none := by
        simpa [Option.not_isSome_iff_eq_none] using hdup
      have hall : ∀ x ∈ s, x.id ≠ d.id := by
        intro x hx
        have := List.find?_eq_none.mp hfind x hx
        simpa using this
      simp only [Except.ok.injEq, Prod.mk.injEq] at h
      obtain ⟨hr, hl⟩ := h
      subst hr
      exact ⟨rfl, hl.symm, hall⟩

theorem createTeacher_ok {d : TeacherData} {s : List Teacher} {r : Teacher}
    {l : List Teacher} (h : createTeacher d s = .ok (r, l)) :
    r = ⟨d.id, d.name, d.email,
          jsOr d.password ("Teacher@" ++ sliceLast3 d.id),
          d.specialization.getD []⟩ ∧
    l = s ++ [r] ∧ ∀ x ∈ s, x.id ≠ d.id := by
  unfold createTeacher at h
  split at h
  · exact absurd h (by simp)
  · split at h
    · exact absurd h (by simp)
    · next hdup =>
      have hfind : s.find? (fun x => x.id == d.id) = none := by
        simpa [Option.not_isSome_iff_eq_none] using hdup
      have hall : ∀ x ∈ s, x.id ≠ d.id := by
        intro x hx
        have := List.find?_eq_none.mp hfind x hx
        simpa using this
      simp only [Except.ok.injEq, Prod.mk.injEq] at h
      obtain ⟨hr, hl⟩ := h
      subst hr
      exact ⟨rfl, hl.symm, hall⟩

theorem updateFirst_eq_some {α : Type} {p : α → Bool} {f : α → α} :
    ∀ {l : List α} {r : α} {l' : List α},
      updateFirst p f l = some (r, l') →
      ∃ l₁ x l₂, l = l₁ ++ x :: l₂ ∧ l' = l₁ ++ f x :: l₂ ∧ r = f x ∧
        p x = true ∧ ∀ y ∈ l₁, p y = false := by
  intro l
  induction l with
  | nil => intro r l' h; simp [updateFirst] at h
  | cons x xs ih =>
    intro r l' h
    rw [updateFirst] at h
    by_cases hp : p x
    · rw [if_pos hp] at h
      simp only [Option.some.injEq, Prod.mk.injEq] at h
      obtain ⟨hr, hl⟩ := h
      exact ⟨[], x, xs, by simp, by simp [hl.symm], hr.symm, hp, by simp⟩
    · rw [if_neg hp] at h
      cases hrec : updateFirst p f xs with
      | none => rw [hrec] at h; simp at h
      | some q =>
        obtain ⟨r₀, xs'⟩ := q
        rw [hrec] at h
        simp only [Option.some.injEq, Prod.mk.injEq] at h
        obtain ⟨hr, hl⟩ := h
        obtain ⟨l₁, y, l₂, he1, he2, he3, he4, he5⟩ := ih hrec
        refine ⟨x :: l₁, y, l₂, by simp [he1], by simp [hl.symm, he2], by simp [hr.symm, he3], he4, ?_⟩
        intro z hz
        rcases List.mem_cons.mp hz with hz | hz
        · subst hz; simpa using hp
        · exact he5 z hz

theorem updateFirst_isSome {α : Type} {p : α → Bool} {f : α → α} :
    ∀ {l : List α}, (∃ x ∈ l, p x = true) → (updateFirst p f l).isSome := by
  intro l
  induction l with
  | nil => intro h; simp at h
  | cons x xs ih =>
    intro h
    rw [updateFirst]
    by_cases hp : p x
    · rw [if_pos hp]; rfl
    · rw [if_neg hp]
      have hxs : ∃ y ∈ xs, p y = true := by
        rcases h with ⟨y, hy, hpy⟩
        rcases List.mem_cons.mp hy with hy | hy
        · subst hy; exact absurd hpy hp
        · exact ⟨y, hy, hpy⟩
      have := ih hxs
      cases hrec : updateFirst p f xs with
      | none => rw [hrec] at this; simp at this
      | some q => obtain ⟨r, xs'⟩ := q; rfl

theorem removeFirst_of_forall_neg {α : Type} {p : α → Bool} :
    ∀ {l : List α}, (∀ x ∈ l, p x = false) → removeFirst p l = (false, l) := by
  intro l
  induction l with
  | nil => intro _; rfl
  | cons x xs ih =>
    intro h
    rw [removeFirst]
    have hx : p x = false := h x (by simp)
    rw [hx]
    simp only [Bool.false_eq_true, if_neg (by simp : ¬False)]
    rw [ih (fun y hy => h y (List.mem_cons_of_mem x hy))]

theorem removeFirst_of_exists {α : Type} {p : α → Bool} :
    ∀ {l : List α}, (∃ x ∈ l, p x = true) →
      (removeFirst p l).1 = true ∧ (removeFirst p l).2.length + 1 = l.length := by
  intro l
  induction l with
  | nil => intro h; simp at h
  | cons x xs ih =>
    intro h
    rw [removeFirst]
    by_cases hp : p x
    · rw [if_pos hp]
      simp
    · rw [if_neg hp]
      have hxs : ∃ y ∈ xs, p y = true := by
        rcases h with ⟨y, hy, hpy⟩
        rcases List.mem_cons.mp hy with hy | hy
        · subst hy; exact absurd hpy hp
        · exact ⟨y, hy, hpy⟩
      obtain ⟨h1, h2⟩ := ih hxs
      constructor
      · simpa using h1
      · simpa using h2

theorem removeFirst_sublist {α : Type} (p : α → Bool) :
    ∀ l : List α, (removeFirst p l).2.Sublist l := by
  intro l
  induction l with
  | nil => simp [removeFirst]
  | cons x xs ih =>
    rw [removeFirst]
    by_cases hp : p x
    · rw [if_pos hp]
      exact List.sublist_cons_self x xs
    · rw [if_neg hp]
      exact List.Sublist.cons₂ x ih

theorem stored_write_fresh {α : Type} [Inhabited α] (cells ext : List α)
    (refs : List Nat) (hwf : ∀ j ∈ refs, j < cells.length)
    (r : Nat) (hr : cells.length ≤ r) (v : α) :
    (RefStore.mk ((cells ++ ext).set r v) refs).stored =
      (RefStore.mk cells refs).stored := by
  unfold RefStore.stored
  apply List.map_congr_left
  intro j hj
  have hjl := hwf j hj
  have hne : r ≠ j := by omega
  simp only [List.getD_eq_getElem?_getD]
  rw [List.getElem?_set_ne hne, List.getElem?_append, if_pos hjl]

theorem listCopy_fresh {α : Type} [Inhabited α] (st : RefStore α)
    (hwf : st.Wf) (r : Nat) (hr : r ∈ st.listCopy.1) (v : α) :
    (st.listCopy.2.write r v).stored = st.stored := by
  obtain ⟨i, _, hri⟩ : ∃ i, i ∈ List.range st.refs.length ∧
      i + st.cells.length = r := by
    simpa [RefStore.listCopy] using hr
  have hge : st.cells.length ≤ r := by omega
  obtain ⟨cells, refs⟩ := st
  have h := stored_write_fresh cells (RefStore.stored ⟨cells, refs⟩) refs hwf
    r hge v
  simpa [RefStore.listCopy, RefStore.write, RefStore.stored] using h

theorem findCopy_fresh {α : Type} [Inhabited α] (p : α → Bool)
    (st : RefStore α) (hwf : st.Wf) (r : Nat)
    (hr : (st.findCopy p).1 = some r) (v : α) :
    ((st.findCopy p).2.write r v).stored = st.stored := by
  unfold RefStore.findCopy at hr ⊢
  cases hfind : st.refs.find? (fun j => p (st.cells.getD j default)) with
  | none => rw [hfind] at hr; simp at hr
  | some j =>
    rw [hfind] at hr
    have hge : st.cells.length ≤ r := le_of_eq (Option.some.inj hr)
    obtain ⟨cells, refs⟩ := st
    exact stored_write_fresh cells [cells.getD j default] refs hwf r hge v

theorem filterAlias_mem {α : Type} [Inhabited α] (p : α → Bool)
    (st : RefStore α) (r : Nat) (hr : r ∈ (st.filterAlias p).1) :
    r ∈ st.refs := by
  have h2 : r ∈ st.refs.filter (fun j => p (st.cells.getD j default)) := hr
  exact (List.mem_filter.mp h2).1

theorem updateStudent_map_id {id : String} {u : StudentUpdates}
    {s s' : List Student} {r : Student}
    (h : updateStudent id u s = some (r, s')) :
    s'.map Student.id = s.map Student.id := by
  obtain ⟨l₁, x, l₂, he1, he2, _, hp, -⟩ := updateFirst_eq_some h
  subst he1 he2
  have hx : x.id = id := by simpa using hp
  simp [List.map_append, applyStudentUpdates, hx]

theorem updateTeacher_map_id {id : String} {u : TeacherUpdates}
    {s s' : List Teacher} {r : Teacher}
    (h : updateTeacher id u s = some (r, s')) :
    s'.map Teacher.id = s.map Teacher.id := by
  obtain ⟨l₁, x, l₂, he1, he2, _, hp, -⟩ := updateFirst_eq_some h
  subst he1 he2
  have hx : x.id = id := by simpa using hp
  simp [List.map_append, applyTeacherUpdates, hx]

theorem applyOp_preserves_idsNodup (op : Op) (st : AppState)
    (hop : opSafe op = true) (h : idsNodup st) : idsNodup (applyOp op st) := by
  obtain ⟨hs, ht⟩ := h
  cases op with
  | createS d =>
    rw [applyOp]
    cases hc : createStudent d st.students with
    | error e => exact ⟨hs, ht⟩
    | ok q =>
      obtain ⟨r, l⟩ := q
      obtain ⟨hr, hl, hfresh⟩ := createStudent_ok hc
      refine ⟨?_, ht⟩
      subst hl
      rw [List.map_append, List.nodup_append]
      refine ⟨hs, by simp, ?_⟩
      simp only [List.map_cons, List.map_nil, List.disjoint_singleton]
      intro hmem
      obtain ⟨x, hx, hxid⟩ := List.mem_map.mp (by simpa using hmem)
      exact hfresh x hx (by rw [hxid, hr])
  | updateS id u =>
    rw [applyOp]
    cases hc : updateStudent id u st.students with
    | none => exact ⟨hs, ht⟩
    | some q =>
      obtain ⟨r, l⟩ := q
      exact ⟨by rw [updateStudent_map_id hc]; exact hs, ht⟩
  | deleteS id =>
    rw [applyOp]
    refine ⟨?_, ht⟩
    exact List.Nodup.sublist
      (List.Sublist.map Student.id
        (removeFirst_sublist (fun s : Student => s.id == id) st.students)) hs
  | searchS q => exact ⟨hs, ht⟩
  | createT d =>
    rw [applyOp]
    cases hc : createTeacher d st.teachers with
    | error e => exact ⟨hs, ht⟩
    | ok q =>
      obtain ⟨r, l⟩ := q
      obtain ⟨hr, hl, hfresh⟩ := createTeacher_ok hc
      refine ⟨hs, ?_⟩
      subst hl
      rw [List.map_append, List.nodup_append]
      refine ⟨ht, by simp, ?_⟩
      simp only [List.map_cons, List.map_nil, List.disjoint_singleton]
      intro hmem
      obtain ⟨x, hx, hxid⟩ := List.mem_map.mp (by simpa using hmem)
      exact hfresh x hx (by rw [hxid, hr])
  | updateT id u =>
    rw [applyOp]
    cases hc : updateTeacher id u st.teachers with
    | none => exact ⟨hs, ht⟩
    | some q =>
      obtain ⟨r, l⟩ := q
      exact ⟨hs, by rw [updateTeacher_map_id hc]; exact ht⟩
  | deleteT id =>
    rw [applyOp]
    refine ⟨hs, ?_⟩
    exact List.Nodup.sublist
      (List.Sublist.map Teacher.id
        (removeFirst_sublist (fun t : Teacher => t.id == id) st.teachers)) ht
  | searchT q => exact ⟨hs, ht⟩
  | exportAll => exact ⟨hs, ht⟩
  | importAll d =>
    rw [applyOp]
    rw [opSafe] at hop
    simp only [Bool.decide_and, Bool.and_eq_true, decide_eq_true_eq] at hop
    obtain ⟨hds, hdt⟩ := hop
    constructor
    · cases hcs : d.students with
      | none => simpa [importData, hcs] using hs
      | some l =>
        rw [hcs] at hds
        simpa [importData, hcs] using hds
    · cases hct : d.teachers with
      | none => simpa [importData, hct] using ht
      | some l =>
        rw [hct] at hdt
        simpa [importData, hct] using hdt
  | resetAll =>
    rw [applyOp]
    exact (by decide : idsNodup ⟨defaultStudents, defaultTeachers⟩)

/-! The claims. -/

/-- C1, counterexample: the claim says every read operation returns records
independent of the internal collections, `search` included.  It fails for
`search`: over a store holding one student, `searchStudents("")` returns the
internal cell address `0` itself, and writing a field through that returned
record changes what the stored collection reads back. -/
theorem searchStudents_returns_aliases :
    (searchStudentsH ""
        ⟨[⟨"1234500001", "John Doe", "john@x.edu", "pw1"⟩], [0]⟩).1 = [0] ∧
    RefStore.stored
        (RefStore.write
          (searchStudentsH ""
            ⟨[⟨"1234500001", "John Doe", "john@x.edu", "pw1"⟩], [0]⟩).2 0
          ⟨"1234500001", "Mallory", "john@x.edu", "pw1"⟩) ≠
      RefStore.stored
        (⟨[⟨"1234500001", "John Doe", "john@x.edu", "pw1"⟩], [0]⟩ :
          RefStore Student) := by
  decide

/-- C1, amended: `getStudents`/`getTeachers` and `getStudentById`/
`getTeacherById` return independent copies — a write through any record
they return leaves the stored collections unchanged — while
`searchStudents`/`searchTeachers` return a fresh array whose elements are
the stored records themselves: every record search returns is one of the
internal references. -/
theorem read_ops_copy_except_search :
    (∀ st : RefStore Student, st.Wf →
      (∀ r ∈ (getStudentsH st).1, ∀ v,
        ((getStudentsH st).2.write r v).stored = st.stored) ∧
      (∀ id r, (getStudentByIdH id st).1 = some r →
        ∀ v, ((getStudentByIdH id st).2.write r v).stored = st.stored) ∧
      (∀ q r, r ∈ (searchStudentsH q st).1 → r ∈ st.refs)) ∧
    (∀ st : RefStore Teacher, st.Wf →
      (∀ r ∈ (getTeachersH st).1, ∀ v,
        ((getTeachersH st).2.write r v).stored = st.stored) ∧
      (∀ id r, (getTeacherByIdH id st).1 = some r →
        ∀ v, ((getTeacherByIdH id st).2.write r v).stored = st.stored) ∧
      (∀ q r, r ∈ (searchTeachersH q st).1 → r ∈ st.refs)) := by
  constructor
  · intro st hwf
    exact ⟨fun r hr v => listCopy_fresh st hwf r hr v,
      fun id r hr v => findCopy_fresh _ st hwf r hr v,
      fun q r hr => filterAlias_mem _ st r hr⟩
  · intro st hwf
    exact ⟨fun r hr v => listCopy_fresh st hwf r hr v,
      fun id r hr v => findCopy_fresh _ st hwf r hr v,
      fun q r hr => filterAlias_mem _ st r hr⟩

/-- Witness for C1's amended theorem at a concrete one-student store: the
copy handed out by `getStudents` can be overwritten without changing the
store, and the reference returned by `search` is the internal one. -/
theorem read_ops_copy_except_search_witness :
    ((getStudentsH
        ⟨[⟨"1234500001", "John Doe", "john@x.edu", "pw1"⟩], [0]⟩).2.write 1
        ⟨"x", "y", "z", "w"⟩).stored =
      RefStore.stored
        (⟨[⟨"1234500001", "John Doe", "john@x.edu", "pw1"⟩], [0]⟩ :
          RefStore Student) ∧
    (0 : Nat) ∈
      (⟨[⟨"1234500001", "John Doe", "john@x.edu", "pw1"⟩], [0]⟩ :
        RefStore Student).refs :=
  ⟨(read_ops_copy_except_search.1
      ⟨[⟨"1234500001", "John Doe", "john@x.edu", "pw1"⟩], [0]⟩
      (by decide)).1 1 (by decide) ⟨"x", "y", "z", "w"⟩,
   (read_ops_copy_except_search.1
      ⟨[⟨"1234500001", "John Doe", "john@x.edu", "pw1"⟩], [0]⟩
      (by decide)).2.2 "" 0 (by decide)⟩

/-- C2, counterexample: a single `importAll` façade call, starting from the
duplicate-free empty state, installs a student collection holding two
records with id `"a"` — import validates nothing. -/
theorem importData_breaks_id_uniqueness :
    idsNodup ⟨[], []⟩ ∧
    ¬ idsNodup (applyOp
        (.importAll ⟨some [⟨"a", "n", "e", "p"⟩, ⟨"a", "n2", "e2", "p2"⟩],
          none⟩)
        ⟨[], []⟩) := by
  decide

/-- C2, amended: id uniqueness within each collection is preserved by every
sequence of façade operations whose imports carry duplicate-free payloads
(create, update, delete, search, export and reset need no side condition;
`importAll` replaces a collection verbatim, so only a payload that is itself
duplicate-free keeps the invariant). -/
theorem safeOps_preserve_idsNodup (ops : List Op) (st : AppState)
    (hops : ∀ op ∈ ops, opSafe op = true) (h : idsNodup st) :
    idsNodup (runOps ops st) := by
  induction ops generalizing st with
  | nil => exact h
  | cons op ops ih =>
    rw [runOps, List.foldl_cons]
    exact ih (applyOp op st)
      (fun o ho => hops o (List.mem_cons_of_mem op ho))
      (applyOp_preserves_idsNodup op st (hops op (by simp)) h)

/-- Witness for C2's amended theorem on a concrete mixed operation
sequence. -/
theorem safeOps_preserve_idsNodup_witness :
    idsNodup (runOps
      [.createS ⟨"1234500002", "Jane Roe", "jane@x.edu", none⟩,
       .deleteS "zzz",
       .importAll ⟨some [⟨"1", "A", "a@x", "p"⟩], some []⟩,
       .resetAll,
       .updateS "1234500001" ⟨some "9", none, none, none⟩,
       .searchS "john",
       .exportAll]
      ⟨[], []⟩) :=
  safeOps_preserve_idsNodup _ _ (by decide) (by decide)

/-- C3: importing the value returned by export leaves both collections'
contents unchanged — same records, same field values, same order. -/
theorem importData_exportData_roundtrip (st : AppState) (now : String) :
    importData (exportData st now).toImport st = st := by
  cases st
  rfl

/-- C4, counterexample: the claim says every input whose id is already
present fails with the duplicate error.  But the required-field check runs
first: an input with a present id and an empty `name` fails with the
validation error instead. -/
theorem create_duplicate_id_validation_first :
    createStudent ⟨"1234500001", "", "x@y.edu", none⟩
        [⟨"1234500001", "John Doe", "john@x.edu", "pw1"⟩] =
      .error .validation ∧
    CreateErr.validation ≠ CreateErr.duplicate := by
  constructor
  · rfl
  · decide

/-- C4, amended: for every input whose `id`, `name` and `email` are
non-empty and whose id is already in the collection, create fails with the
duplicate error and leaves both collections exactly as they were. -/
theorem create_duplicate_id_rejected :
    (∀ (d : StudentData) (s : List Student) (t : List Teacher),
      d.id ≠ "" → d.name ≠ "" → d.email ≠ "" → (∃ x ∈ s, x.id = d.id) →
      createStudent d s = .error .duplicate ∧
        applyOp (.createS d) ⟨s, t⟩ = ⟨s, t⟩) ∧
    (∀ (d : TeacherData) (s : List Student) (t : List Teacher),
      d.id ≠ "" → d.name ≠ "" → d.email ≠ "" → (∃ x ∈ t, x.id = d.id) →
      createTeacher d t = .error .duplicate ∧
        applyOp (.createT d) ⟨s, t⟩ = ⟨s, t⟩) := by
  constructor
  · intro d s t hid hn he hdup
    have hsome : (s.find? (fun x => x.id == d.id)).isSome = true := by
      rw [List.find?_isSome]
      obtain ⟨x, hx, hxid⟩ := hdup
      exact ⟨x, hx, by simpa using hxid⟩
    have hc : createStudent d s = .error .duplicate := by
      simp [createStudent, hid, hn, he, hsome]
    exact ⟨hc, by rw [applyOp, hc]⟩
  · intro d s t hid hn he hdup
    have hsome : (t.find? (fun x => x.id == d.id)).isSome = true := by
      rw [List.find?_isSome]
      obtain ⟨x, hx, hxid⟩ := hdup
      exact ⟨x, hx, by simpa using hxid⟩
    have hc : createTeacher d t = .error .duplicate := by
      simp [createTeacher, hid, hn, he, hsome]
    exact ⟨hc, by rw [applyOp, hc]⟩

/-- Witness for C4's amended theorem at a concrete duplicate id. -/
theorem create_duplicate_id_rejected_witness :
    createStudent ⟨"1234500001", "Jane", "j@x.edu", none⟩
        [⟨"1234500001", "John Doe", "john@x.edu", "pw1"⟩] =
      .error .duplicate ∧
    applyOp (.createS ⟨"1234500001", "Jane", "j@x.edu", none⟩)
        ⟨[⟨"1234500001", "John Doe", "john@x.edu", "pw1"⟩], []⟩ =
      ⟨[⟨"1234500001", "John Doe", "john@x.edu", "pw1"⟩], []⟩ :=
  create_duplicate_id_rejected.1 ⟨"1234500001", "Jane", "j@x.edu", none⟩
    [⟨"1234500001", "John Doe", "john@x.edu", "pw1"⟩] []
    (by decide) (by decide) (by decide) (by decide)

/-- C5: creating a valid record with a fresh id succeeds, and `getById` on
that id then returns a record whose `id`, `name` and `email` equal the
input's, with a non-empty password (non-empty even when none, or an empty
one, was supplied). -/
theorem create_then_getById :
    (∀ (d : StudentData) (s : List Student),
      d.id ≠ "" → d.name ≠ "" → d.email ≠ "" → (∀ x ∈ s, x.id ≠ d.id) →
      ∃ r l, createStudent d s = .ok (r, l) ∧
        getStudentById d.id l = some r ∧
        r.id = d.id ∧ r.name = d.name ∧ r.email = d.email ∧
        r.password ≠ "") ∧
    (∀ (d : TeacherData) (t : List Teacher),
      d.id ≠ "" → d.name ≠ "" → d.email ≠ "" → (∀ x ∈ t, x.id ≠ d.id) →
      ∃ r l, createTeacher d t = .ok (r, l) ∧
        getTeacherById d.id l = some r ∧
        r.id = d.id ∧ r.name = d.name ∧ r.email = d.email ∧
        r.password ≠ "") := by
  constructor
  · intro d s hid hn he hf
    refine ⟨_, _, createStudent_success d s hid hn he hf, ?_, rfl, rfl, rfl, ?_⟩
    · rw [getStudentById]
      have hnone : s.find? (fun x => x.id == d.id) = none := by
        rw [List.find?_eq_none]
        intro x hx
        simpa using hf x hx
      rw [find?_append_none hnone]
      exact List.find?_cons_of_pos _ (by simp)
    · exact jsOr_ne_empty d.password _
        (append_ne_empty "Student@" _ (by decide))
  · intro d t hid hn he hf
    refine ⟨_, _, createTeacher_success d t hid hn he hf, ?_, rfl, rfl, rfl, ?_⟩
    · rw [getTeacherById]
      have hnone : t.find? (fun x => x.id == d.id) = none := by
        rw [List.find?_eq_none]
        intro x hx
        simpa using hf x hx
      rw [find?_append_none hnone]
      exact List.find?_cons_of_pos _ (by simp)
    · exact jsOr_ne_empty d.password _
        (append_ne_empty "Teacher@" _ (by decide))

/-- Witness for C5 on the spec's sample student. -/
theorem create_then_getById_witness :
    ∃ r l, createStudent ⟨"1234500002", "Jane Roe", "jane@x.edu", none⟩
        [⟨"1234500001", "John Doe", "john@x.edu", "pw1"⟩] = .ok (r, l) ∧
      getStudentById "1234500002" l = some r ∧
      r.id = "1234500002" ∧ r.name = "Jane Roe" ∧ r.email = "jane@x.edu" ∧
      r.password ≠ "" :=
  create_then_getById.1 ⟨"1234500002", "Jane Roe", "jane@x.edu", none⟩
    [⟨"1234500001", "John Doe", "john@x.edu", "pw1"⟩]
    (by decide) (by decide) (by decide) (by decide)

/-- C6: when a record with the looked-up id is present, update succeeds and
replaces exactly that (first) occurrence: the patched fields take the patch
values, unpatched fields keep their old values, every other record is
untouched, and the record's id equals its old id even when the patch
carries a different `id`. -/
theorem update_changes_only_patch_fields :
    (∀ (id : String) (u : StudentUpdates) (s : List Student),
      (∃ x ∈ s, x.id = id) →
      ∃ r s' l₁ old l₂, updateStudent id u s = some (r, s') ∧
        s = l₁ ++ old :: l₂ ∧ s' = l₁ ++ r :: l₂ ∧
        r.id = old.id ∧ r.name = u.name.getD old.name ∧
        r.email = u.email.getD old.email ∧
        r.password = u.password.getD old.password) ∧
    (∀ (id : String) (u : TeacherUpdates) (t : List Teacher),
      (∃ x ∈ t, x.id = id) →
      ∃ r t' l₁ old l₂, updateTeacher id u t = some (r, t') ∧
        t = l₁ ++ old :: l₂ ∧ t' = l₁ ++ r :: l₂ ∧
        r.id = old.id ∧ r.name = u.name.getD old.name ∧
        r.email = u.email.getD old.email ∧
        r.password = u.password.getD old.password ∧
        r.specialization = u.specialization.getD old.specialization) := by
  constructor
  · intro id u s hex
    have hsome : (updateStudent id u s).isSome := by
      apply updateFirst_isSome
      obtain ⟨x, hx, hxid⟩ := hex
      exact ⟨x, hx, by simpa using hxid⟩
    obtain ⟨q, hq⟩ := Option.isSome_iff_exists.mp hsome
    obtain ⟨r, s'⟩ := q
    obtain ⟨l₁, x, l₂, he1, he2, he3, hp, -⟩ := updateFirst_eq_some hq
    have hxid : x.id = id := by simpa using hp
    rw [← he3] at he2
    refine ⟨r, s', l₁, x, l₂, hq, he1, he2, ?_, ?_, ?_, ?_⟩ <;>
      rw [he3] <;> simp [applyStudentUpdates, hxid]
  · intro id u t hex
    have hsome : (updateTeacher id u t).isSome := by
      apply updateFirst_isSome
      obtain ⟨x, hx, hxid⟩ := hex
      exact ⟨x, hx, by simpa using hxid⟩
    obtain ⟨q, hq⟩ := Option.isSome_iff_exists.mp hsome
    obtain ⟨r, t'⟩ := q
    obtain ⟨l₁, x, l₂, he1, he2, he3, hp, -⟩ := updateFirst_eq_some hq
    have hxid : x.id = id := by simpa using hp
    rw [← he3] at he2
    refine ⟨r, t', l₁, x, l₂, hq, he1, he2, ?_, ?_, ?_, ?_, ?_⟩ <;>
      rw [he3] <;> simp [applyTeacherUpdates, hxid]

/-- Witness for C6: patching the sample student's email (with a stray
different `id` in the patch) on a two-student collection. -/
theorem update_changes_only_patch_fields_witness :
    ∃ r s' l₁ old l₂,
      updateStudent "1234500002"
          ⟨some "OTHER", none, some "jane2@x.edu", none⟩
          [⟨"1234500001", "John Doe", "john@x.edu", "pw1"⟩,
           ⟨"1234500002", "Jane Roe", "jane@x.edu", "pw2"⟩] = some (r, s') ∧
        [⟨"1234500001", "John Doe", "john@x.edu", "pw1"⟩,
         ⟨"1234500002", "Jane Roe", "jane@x.edu", "pw2"⟩] =
          l₁ ++ old :: l₂ ∧
        s' = l₁ ++ r :: l₂ ∧
        r.id = old.id ∧
        r.name = (none : Option String).getD old.name ∧
        r.email = (some "jane2@x.edu" : Option String).getD old.email ∧
        r.password = (none : Option String).getD old.password :=
  update_changes_only_patch_fields.1 "1234500002"
    ⟨some "OTHER", none, some "jane2@x.edu", none⟩
    [⟨"1234500001", "John Doe", "john@x.edu", "pw1"⟩,
     ⟨"1234500002", "Jane Roe", "jane@x.edu", "pw2"⟩]
    (by decide)

/-- C7: search with the empty string returns every record, and for every
query, search returns exactly the records whose `name` or `email` contains
the query case-insensitively as a substring — a filter that never looks at
`id`. -/
theorem search_filters_name_email_case_insensitive :
    (∀ s : List Student, searchStudents "" s = s) ∧
    (∀ (q : String) (s : List Student),
      searchStudents q s = s.filter (specStudentMatch q)) ∧
    (∀ t : List Teacher, searchTeachers "" t = t) ∧
    (∀ (q : String) (t : List Teacher),
      searchTeachers q t = t.filter (specTeacherMatch q)) := by
  refine ⟨?_, fun q s => rfl, ?_, fun q t => rfl⟩
  · intro s
    apply List.filter_eq_self.mpr
    intro a _
    rw [lowerChars_empty, subMatch_nil, subMatch_nil]
    rfl
  · intro t
    apply List.filter_eq_self.mpr
    intro a _
    rw [lowerChars_empty, subMatch_nil, subMatch_nil]
    rfl

/-- C8: delete on an absent id returns `false` and leaves the collection
untouched; delete on a present id returns `true` and shrinks the collection
by exactly one record.  (The embedded operation is a total function: the
source `deleteStudent`/`deleteTeacher` has no throwing path.) -/
theorem delete_absent_false_present_shrinks :
    (∀ (id : String) (s : List Student),
      ((∀ x ∈ s, x.id ≠ id) → deleteStudent id s = (false, s)) ∧
      ((∃ x ∈ s, x.id = id) →
        (deleteStudent id s).1 = true ∧
        (deleteStudent id s).2.length + 1 = s.length)) ∧
    (∀ (id : String) (t : List Teacher),
      ((∀ x ∈ t, x.id ≠ id) → deleteTeacher id t = (false, t)) ∧
      ((∃ x ∈ t, x.id = id) →
        (deleteTeacher id t).1 = true ∧
        (deleteTeacher id t).2.length + 1 = t.length)) := by
  constructor
  · intro id s
    constructor
    · intro h
      apply removeFirst_of_forall_neg
      intro x hx
      simpa using h x hx
    · intro h
      apply removeFirst_of_exists
      obtain ⟨x, hx, hxid⟩ := h
      exact ⟨x, hx, by simpa using hxid⟩
  · intro id t
    constructor
    · intro h
      apply removeFirst_of_forall_neg
      intro x hx
      simpa using h x hx
    · intro h
      apply removeFirst_of_exists
      obtain ⟨x, hx, hxid⟩ := h
      exact ⟨x, hx, by simpa using hxid⟩

/-- Witness for C8: both branches at a concrete one-student collection. -/
theorem delete_absent_false_present_shrinks_witness :
    deleteStudent "zzz" [⟨"1234500001", "John Doe", "john@x.edu", "pw1"⟩] =
      (false, [⟨"1234500001", "John Doe", "john@x.edu", "pw1"⟩]) ∧
    (deleteStudent "1234500001"
        [⟨"1234500001", "John Doe", "john@x.edu", "pw1"⟩]).1 = true ∧
    (deleteStudent "1234500001"
        [⟨"1234500001", "John Doe", "john@x.edu", "pw1"⟩]).2.length + 1 =
      ([⟨"1234500001", "John Doe", "john@x.edu", "pw1"⟩] :
        List Student).length :=
  ⟨(delete_absent_false_present_shrinks.1 "zzz"
      [⟨"1234500001", "John Doe", "john@x.edu", "pw1"⟩]).1 (by decide),
   (delete_absent_false_present_shrinks.1 "1234500001"
      [⟨"1234500001", "John Doe", "john@x.edu", "pw1"⟩]).2 (by decide)⟩

/-- C9: when no password is supplied, create stores
`"Student@" + id.slice(-3)` for students and `"Teacher@" + id.slice(-3)`
for teachers. -/
theorem default_password_synthesized :
    (∀ (d : StudentData) (s : List Student),
      d.id ≠ "" → d.name ≠ "" → d.email ≠ "" → (∀ x ∈ s, x.id ≠ d.id) →
      d.password = none →
      createStudent d s =
        .ok (⟨d.id, d.name, d.email, "Student@" ++ sliceLast3 d.id⟩,
          s ++ [⟨d.id, d.name, d.email, "Student@" ++ sliceLast3 d.id⟩])) ∧
    (∀ (d : TeacherData) (t : List Teacher),
      d.id ≠ "" → d.name ≠ "" → d.email ≠ "" → (∀ x ∈ t, x.id ≠ d.id) →
      d.password = none →
      createTeacher d t =
        .ok (⟨d.id, d.name, d.email, "Teacher@" ++ sliceLast3 d.id,
            d.specialization.getD []⟩,
          t ++ [⟨d.id, d.name, d.email, "Teacher@" ++ sliceLast3 d.id,
            d.specialization.getD []⟩])) := by
  constructor
  · intro d s hid hn he hf hp
    have h := createStudent_success d s hid hn he hf
    rw [hp] at h
    exact h
  · intro d t hid hn he hf hp
    have h := createTeacher_success d t hid hn he hf
    rw [hp] at h
    exact h

/-- Witness for C9 on the spec's sample input: id `"1234500002"` yields
password `"Student@002"`. -/
theorem default_password_synthesized_witness :
    createStudent ⟨"1234500002", "Jane Roe", "jane@x.edu", none⟩
        [⟨"1234500001", "John Doe", "john@x.edu", "pw1"⟩] =
      .ok (⟨"1234500002", "Jane Roe", "jane@x.edu", "Student@002"⟩,
        [⟨"1234500001", "John Doe", "john@x.edu", "pw1"⟩,
         ⟨"1234500002", "Jane Roe", "jane@x.edu", "Student@002"⟩]) := by
  have h := default_password_synthesized.1
    ⟨"1234500002", "Jane Roe", "jane@x.edu", none⟩
    [⟨"1234500001", "John Doe", "john@x.edu", "pw1"⟩]
    (by decide) (by decide) (by decide) (by decide) rfl
  have e : ("Student@" ++ sliceLast3 "1234500002" : String) = "Student@002" := by
    decide
  rw [e] at h
  exact h

/-- C10: an input that explicitly supplies the empty string as its password
still gets the synthesized default — `password: ""` is falsy, so
`studentData.password || default` takes the default, exactly as when the
field is absent. -/
theorem empty_password_gets_default :
    (∀ (d : StudentData) (s : List Student),
      d.id ≠ "" → d.name ≠ "" → d.email ≠ "" → (∀ x ∈ s, x.id ≠ d.id) →
      d.password = some "" →
      createStudent d s =
        .ok (⟨d.id, d.name, d.email, "Student@" ++ sliceLast3 d.id⟩,
          s ++ [⟨d.id, d.name, d.email, "Student@" ++ sliceLast3 d.id⟩])) ∧
    (∀ (d : TeacherData) (t : List Teacher),
      d.id ≠ "" → d.name ≠ "" → d.email ≠ "" → (∀ x ∈ t, x.id ≠ d.id) →
      d.password = some "" →
      createTeacher d t =
        .ok (⟨d.id, d.name, d.email, "Teacher@" ++ sliceLast3 d.id,
            d.specialization.getD []⟩,
          t ++ [⟨d.id, d.name, d.email, "Teacher@" ++ sliceLast3 d.id,
            d.specialization.getD []⟩])) := by
  constructor
  · intro d s hid hn he hf hp
    have h := createStudent_success d s hid hn he hf
    rw [hp] at h
    exact h
  · intro d t hid hn he hf hp
    have h := createTeacher_success d t hid hn he hf
    rw [hp] at h
    exact h

/-- Witness for C10: supplying `password: ""` explicitly still yields
`"Student@002"`. -/
theorem empty_password_gets_default_witness :
    createStudent ⟨"1234500002", "Jane Roe", "jane@x.edu", some ""⟩
        [⟨"1234500001", "John Doe", "john@x.edu", "pw1"⟩] =
      .ok (⟨"1234500002", "Jane Roe", "jane@x.edu", "Student@002"⟩,
        [⟨"1234500001", "John Doe", "john@x.edu", "pw1"⟩,
         ⟨"1234500002", "Jane Roe", "jane@x.edu", "Student@002"⟩]) := by
  have h := empty_password_gets_default.1
    ⟨"1234500002", "Jane Roe", "jane@x.edu", some ""⟩
    [⟨"1234500001", "John Doe", "john@x.edu", "pw1"⟩]
    (by decide) (by decide) (by decide) (by decide) rfl
  have e : ("Student@" ++ sliceLast3 "1234500002" : String) = "Student@002" := by
    decide
  rw [e] at h
  exact h

end Storage

